import Mathlib

/-!
Verification development for the dir2opds OPDS catalog server
(package `internal/service`, file `service.go`).

The definitions below are a shallow embedding of the Go source:

* strings are Lean `String`s; the Go standard-library string and
  filepath helpers used by the code (`strings.HasPrefix`,
  `strings.Contains`, `strings.Cut`, `strings.ToLower`,
  `filepath.Clean`, `filepath.Join`, `filepath.Ext`,
  `url.PathEscape`) are modelled character-exactly below;
* the filesystem is modelled by an oracle record `FSO`
  (`os.Stat`, `os.ReadDir`, `filepath.EvalSymlinks`) plus an
  explicit directory tree `FSTree` for the recursive walk done by
  `filepath.WalkDir`;
* fallible operations return `Option`/`Except`; a Go nil-interface
  dereference (a runtime panic) is modelled as `none`.
-/

/-! ## String helpers (models of Go `strings` functions) -/

/-- Character-list test that `hay` starts with `needle`; model of
`strings.HasPrefix(hay, needle)` restricted to the underlying rune
sequences. -/
def startsChars : List Char → List Char → Bool
  | _, [] => true
  | [], _ :: _ => false
  | a :: as, b :: bs => a == b && startsChars as bs

/-- Model of Go `strings.HasPrefix(s, p)`. -/
def strStarts (s p : String) : Bool :=
  startsChars s.data p.data

/-- Character-list substring test. -/
def charsContain (hay needle : List Char) : Bool :=
  match hay with
  | [] => needle.isEmpty
  | _ :: rest => startsChars hay needle || charsContain rest needle

/-- Model of Go `strings.Contains(s, sub)`. -/
def goContains (s sub : String) : Bool :=
  charsContain s.data sub.data

/-- Everything after the first occurrence of `needle` in `hay`
(character-list level); `[]` when `needle` does not occur. -/
def cutAfterChars (hay needle : List Char) : List Char :=
  match hay with
  | [] => []
  | _ :: rest =>
    if startsChars hay needle then hay.drop needle.length
    else cutAfterChars rest needle

/-- Model of the `after` component of Go `strings.Cut(s, sep)`
(the code discards the other two components). -/
def cutAfterStr (s sep : String) : String :=
  ⟨cutAfterChars s.data sep.data⟩

/-- ASCII lower-casing of one character; model of what
`strings.ToLower` does on ASCII input (the only inputs exercised
here). -/
def lowerChar (c : Char) : Char :=
  if 65 ≤ c.toNat && c.toNat ≤ 90 then Char.ofNat (c.toNat + 32) else c

/-- Model of Go `strings.ToLower` on ASCII strings. -/
def asciiLower (s : String) : String :=
  ⟨s.data.map lowerChar⟩

/-! ## Filepath helpers (models of Go `path/filepath` on Unix) -/

/-- Splitting a character list on `/`, keeping empty segments,
matching Go's behaviour of `strings.Split(s, "/")`. -/
def splitSegsAux (acc : List Char) : List Char → List (List Char)
  | [] => [acc.reverse]
  | c :: rest =>
    if c == '/' then acc.reverse :: splitSegsAux [] rest
    else splitSegsAux (c :: acc) rest

/-- Slash-separated segments of a path string. -/
def splitSlash (s : String) : List String :=
  (splitSegsAux [] s.data).map fun cs => ⟨cs⟩

/-- Joining path segments with `/`. -/
def joinSlash : List String → String
  | [] => ""
  | [x] => x
  | x :: rest => x ++ "/" ++ joinSlash rest

/-- Core of `filepath.Clean`: process segments left to right keeping a
(reversed) output stack; `""` and `"."` segments are dropped; `".."`
pops a previous real segment, is dropped at the root of a rooted path,
and is kept on a relative path with nothing to pop. This is the
segment-level restatement of the lazybuf loop in Go `path.Clean`. -/
def cleanCore (rooted : Bool) : List String → List String → List String
  | out, [] => out.reverse
  | out, seg :: rest =>
    if seg == "" || seg == "." then cleanCore rooted out rest
    else if seg == ".." then
      match out with
      | top :: out' =>
        if top == ".." then cleanCore rooted (".." :: top :: out') rest
        else cleanCore rooted out' rest
      | [] =>
        if rooted then cleanCore rooted [] rest
        else cleanCore rooted [".."] rest
    else cleanCore rooted (seg :: out) rest

/-- Model of Go `filepath.Clean` (Unix rules). -/
def clean (path : String) : String :=
  if path == "" then "."
  else
    let rooted := strStarts path "/"
    let segs := cleanCore rooted [] (splitSlash path)
    if rooted then "/" ++ joinSlash segs
    else if segs.isEmpty then "." else joinSlash segs

/-- Model of Go `filepath.Join(a, b)`: empty elements are dropped, the
rest are joined with `/` and cleaned; all-empty input yields `""`. -/
def goJoin (a b : String) : String :=
  if a == "" then (if b == "" then "" else clean b)
  else clean (a ++ "/" ++ b)

/-- Reversed-scan core of `filepath.Ext`: walk the reversed character
list collecting the candidate extension until the last `.` of the final
path element; a `/` or the end of the string means no extension. -/
def extRevGo (acc : List Char) : List Char → List Char
  | [] => []
  | c :: rest =>
    if c == '/' then []
    else if c == '.' then '.' :: acc
    else extRevGo (c :: acc) rest

/-- Model of Go `filepath.Ext`. -/
def goExt (s : String) : String :=
  ⟨extRevGo [] s.data.reverse⟩

/-! ## Percent escaping (model of Go `net/url.PathEscape`) -/

/-- UTF-8 encoding of a code point as byte values. -/
def utf8Bytes (n : Nat) : List Nat :=
  if n < 0x80 then [n]
  else if n < 0x800 then [0xC0 + n / 64, 0x80 + n % 64]
  else if n < 0x10000 then
    [0xE0 + n / 4096, 0x80 + n / 64 % 64, 0x80 + n % 64]
  else
    [0xF0 + n / 262144, 0x80 + n / 4096 % 64, 0x80 + n / 64 % 64,
      0x80 + n % 64]

/-- Upper-case hexadecimal digit for a value below 16. -/
def hexDigit (n : Nat) : Char :=
  if n < 10 then Char.ofNat (48 + n) else Char.ofNat (55 + n)

/-- Bytes left unescaped by `url.PathEscape` (net/url `shouldEscape`
with mode `encodePathSegment`): ASCII alphanumerics, `-._~`, and the
reserved characters `$&+:=@`. -/
def pathSegByteKept (b : Nat) : Bool :=
  (65 ≤ b && b ≤ 90) || (97 ≤ b && b ≤ 122) || (48 ≤ b && b ≤ 57) ||
    b == 45 || b == 95 || b == 46 || b == 126 ||
    b == 36 || b == 38 || b == 43 || b == 58 || b == 61 || b == 64

/-- Model of Go `url.PathEscape`. -/
def pathEscape (s : String) : String :=
  ⟨((s.data.map fun c => utf8Bytes c.toNat).flatten.map fun b =>
      if pathSegByteKept b then [Char.ofNat b]
      else ['%', hexDigit (b / 16), hexDigit (b % 16)]).flatten⟩

/-! ## Data model (service.go constants and types) -/

/-- Path classification constant `pathTypeFile` (service.go line 36). -/
def pathTypeFile : Nat := 0

/-- Path classification constant `pathTypeDirOfDirs` (line 37). -/
def pathTypeDirOfDirs : Nat := 1

/-- Path classification constant `pathTypeDirOfFiles` (line 38). -/
def pathTypeDirOfFiles : Nat := 2

/-- Constant `ignoreFile = true` (line 42). -/
def ignoreFile : Bool := true

/-- Constant `includeFile = false` (line 43). -/
def includeFile : Bool := false

/-- Constant `currentDirectory = "."` (line 44). -/
def currentDirectory : String := "."

/-- Constant `parentDirectory = ".."` (line 45). -/
def parentDirectory : String := ".."

/-- Constant `hiddenFilePrefix = "."` (line 46). -/
def hiddenFilePre : String := "."

/-- Configuration struct `OPDS` (lines 49-54). -/
structure OPDS where
  TrustedRoot : String
  HideCalibreFiles : Bool
  HideDotFiles : Bool
  NoCache : Bool
deriving Repr, DecidableEq

/-- Go interface `IsDirer` (lines 56-58), satisfied by both
`fs.FileInfo` and `fs.DirEntry`. -/
class IsDirer (α : Type) where
  isDirOf : α → Bool

/-- Function `isFile` (lines 60-62). -/
def isFile [IsDirer α] (e : α) : Bool :=
  !(IsDirer.isDirOf e)

/-- Result of a successful `os.Stat`: the only field the code reads is
`IsDir()`. -/
structure StatInfo where
  isDir : Bool
deriving Repr, DecidableEq

instance : IsDirer StatInfo := ⟨StatInfo.isDir⟩

/-- One `fs.DirEntry` from `os.ReadDir`: the code reads `Name()` and
`IsDir()`. -/
structure DirEnt where
  name : String
  isDir : Bool
deriving Repr, DecidableEq

instance : IsDirer DirEnt := ⟨DirEnt.isDir⟩

/-- Filesystem oracle: the three fallible filesystem calls made by the
code. `stat p = none` models an `os.Stat` error, `readDir p = none`
models an `os.ReadDir` error with no entries read, and
`evalSym p = none` models a `filepath.EvalSymlinks` error (missing
path, broken link, permission error); `evalSym p = some r` yields the
canonical real path. -/
structure FSO where
  evalSym : String → Option String
  stat : String → Option StatInfo
  readDir : String → Option (List DirEnt)

/-- Directory tree used to model the recursive traversal done by
`filepath.WalkDir` in `makeSearchResult`. Children are stored in the
lexical order in which Go's `WalkDir` visits them. File nodes carry a
modification time (a bare `Nat`) for the spec-modelled newest-items
feature. -/
inductive FSTree where
  | file (name : String) (modTime : Nat)
  | dir (name : String) (children : List FSTree)

/-- Name of a tree node (`fs.DirEntry.Name()`). -/
def FSTree.name : FSTree → String
  | .file n _ => n
  | .dir n _ => n

/-- Directory test of a tree node (`fs.DirEntry.IsDir()`). -/
def FSTree.isDir : FSTree → Bool
  | .file _ _ => false
  | .dir _ _ => true

/-! ## Constants of the OPDS media types (service.go lines 64-69) -/

/-- Media type constant `navigationType` (line 64). -/
def navType : String := "application/atom+xml;profile=opds-catalog;kind=navigation"

/-- Media type constant for acquisition feeds (appears inline at lines
155, 160, 292). -/
def acqType : String := "application/atom+xml;profile=opds-catalog;kind=acquisition"

/-- Constant `searchType` (line 66). -/
def searchType : String := "application/opensearchdescription+xml"

/-- Constant `searchDefinitionName` (line 68). -/
def searchDefinitionName : String := "opensearch.xml"

/-- Constant `searchDefinitionPath` (line 67). -/
def searchDefinitionPath : String := "/" ++ searchDefinitionName

/-- Constant `searchPath` (line 69). -/
def searchPath : String := "/search"

/-! ## Source functions: visibility filter, rel/type, classifier,
path guard -/

/-- Function `fileShouldBeIgnored` (service.go lines 250-271),
translated clause for clause. -/
def fileShouldBeIgnored (filename : String)
    (hideCalibreFiles hideDotFiles : Bool) : Bool :=
  if filename == currentDirectory || filename == parentDirectory then
    includeFile
  else if hideDotFiles && strStarts filename hiddenFilePre then
    ignoreFile
  else if hideCalibreFiles &&
      (goContains filename ".opf" ||
        goContains filename "cover." ||
        goContains filename "metadata.db" ||
        goContains filename "metadata_db_prefs_backup.json" ||
        goContains filename ".caltrash" ||
        goContains filename ".calnotes") then
    ignoreFile
  else
    false

/-- Function `getRel` (lines 273-285). -/
def getRel (name : String) (pathType : Nat) : String :=
  if pathType == pathTypeDirOfFiles || pathType == pathTypeDirOfDirs then
    "subsection"
  else
    let ext := goExt name
    if ext == ".png" || ext == ".jpg" || ext == ".jpeg" || ext == ".gif" then
      "http://opds-spec.org/image/thumbnail"
    else
      "http://opds-spec.org/acquisition"

/-- Lookup table modelling `mime.TypeByExtension`: the six extensions
registered in `init()` (lines 26-33) plus the entries of Go's builtin
table and the system table that the repository's tests exercise;
unknown extensions yield `""`. -/
def mimeTypeByExt : String → String
  | ".mobi" => "application/x-mobipocket-ebook"
  | ".epub" => "application/epub+zip"
  | ".cbz" => "application/x-cbz"
  | ".cbr" => "application/x-cbr"
  | ".fb2" => "text/fb2+xml"
  | ".pdf" => "application/pdf"
  | ".txt" => "text/plain; charset=utf-8"
  | ".jpg" => "image/jpeg"
  | ".jpeg" => "image/jpeg"
  | ".png" => "image/png"
  | ".gif" => "image/gif"
  | ".xml" => "text/xml; charset=utf-8"
  | _ => ""

/-- Function `getType` (lines 287-298). The default branch calls
`mime.TypeByExtension("xml")`, which yields `""` because the argument
lacks the leading dot. -/
def getType (name : String) (pathType : Nat) : String :=
  if pathType == pathTypeFile then mimeTypeByExt (goExt name)
  else if pathType == pathTypeDirOfFiles then acqType
  else if pathType == pathTypeDirOfDirs then navType
  else mimeTypeByExt "xml"

/-- Function `getPathType` (lines 300-322). When `os.Stat` fails the Go
code logs the error and then calls `fi.IsDir()` on the nil `FileInfo`
interface value, which is a runtime panic (nil pointer dereference);
that outcome is modelled as `none`. An `os.ReadDir` error is logged and
the nil entry slice makes the loop run zero times, giving
`pathTypeDirOfDirs`. -/
def getPathType (fs : FSO) (dirpath : String) : Option Nat :=
  match fs.stat dirpath with
  | none => none
  | some fi =>
    if isFile fi then some pathTypeFile
    else
      let dirEntries := (fs.readDir dirpath).getD []
      if dirEntries.any (fun e => isFile e) then some pathTypeDirOfFiles
      else some pathTypeDirOfDirs

/-- Function `inTrustedRoot` (lines 350-352): a bare
`strings.HasPrefix` test. -/
def inTrustedRoot (path trustedRoot : String) : Bool :=
  strStarts path trustedRoot

/-- Function `verifyPath` (lines 331-348): clean the candidate,
canonicalize through `filepath.EvalSymlinks`, then check the trusted
root is a string prefix of the canonical path. Go returns a
`(path, error)` pair; only the error/no-error distinction is read by
the caller, so the model returns `Except`, with `.ok` carrying the
canonical path. -/
def verifyPath (evalSym : String → Option String)
    (path trustedRoot : String) : Except String String :=
  let c := clean path
  match evalSym c with
  | none => .error "unsafe or invalid path specified"
  | some r =>
    if inTrustedRoot r trustedRoot then .ok r
    else .error "unsafe or invalid path specified"

/-! ## Feed model (the fields of `atom.Feed`/`atom.Entry` the builders
set; empty `Published`/`Updated` strings on entries are omitted) -/

/-- One atom link as assembled by `opds.LinkBuilder`: relation, href,
media type, and the optional `title` attribute. -/
structure Link where
  rel : String
  href : String
  typ : String
  title : Option String
deriving Repr, DecidableEq

/-- One feed entry as assembled by `opds.EntryBuilder`. -/
structure Entry where
  id : String
  title : String
  links : List Link
deriving Repr, DecidableEq

/-- A feed as assembled by `opds.FeedBuilder`/`search.FeedBuilder`; the
updated time is the injected clock value (a bare `Nat`). -/
structure Feed where
  id : String
  title : String
  updated : Nat
  links : List Link
  entries : List Entry
deriving Repr, DecidableEq

/-- The `start` link added to every feed (service.go lines 183, 213). -/
def startLink : Link :=
  { rel := "start", href := "/", typ := navType, title := none }

/-- The `search` link added to every feed (lines 184, 214). -/
def searchLink : Link :=
  { rel := "search", href := searchDefinitionPath, typ := searchType,
    title := none }

/-- An incoming request, after the `url.PathUnescape` of Handler lines
78-82 (the claims quantify over decoded paths, so the model receives
the decoded path directly): the decoded URL path, the value of
`req.URL.RequestURI()`, and the `q` query parameter (`none` when the
parameter is absent; `url.Values.Get` turns absence into `""`). -/
structure Request where
  urlPath : String
  requestURI : String
  query_q : Option String
deriving Repr, DecidableEq

/-- One entry of a browse feed (`makeFeed` loop body, lines 193-203):
id is the request path concatenated directly with the child name, and
the link href joins the request URI with the percent-escaped name. -/
def mkFeedEntry (reqPath reqURI name : String) (pathType : Nat) : Entry :=
  { id := reqPath ++ name
    title := name
    links := [{ rel := getRel name pathType
                title := some name
                href := goJoin reqURI (pathEscape name)
                typ := getType name pathType }] }

/-- Entry list of `makeFeed` (lines 186-204): directory entries in
order, skipping ignored names, classifying each child with
`getPathType`; `none` models the nil-`FileInfo` panic when a child's
stat fails inside `getPathType`. -/
def makeFeedEntries (s : OPDS) (fs : FSO) (fpath : String)
    (req : Request) : List DirEnt → Option (List Entry)
  | [] => some []
  | d :: rest =>
    if fileShouldBeIgnored d.name s.HideCalibreFiles s.HideDotFiles then
      makeFeedEntries s fs fpath req rest
    else
      match getPathType fs (goJoin fpath d.name) with
      | none => none
      | some pt =>
        match makeFeedEntries s fs fpath req rest with
        | none => none
        | some es => some (mkFeedEntry req.urlPath req.requestURI d.name pt :: es)

/-- Method `makeFeed` (lines 178-206). The `os.ReadDir` error is
discarded (`dirEntries, _ := os.ReadDir(fpath)`), leaving a nil slice,
modelled by `getD []`. -/
def OPDS.makeFeed (s : OPDS) (fs : FSO) (now : Nat) (fpath : String)
    (req : Request) : Option Feed :=
  match makeFeedEntries s fs fpath req ((fs.readDir fpath).getD []) with
  | none => none
  | some es =>
    some { id := req.urlPath
           title := "Catalog in " ++ req.urlPath
           updated := now
           links := [startLink, searchLink]
           entries := es }

/-! ## The search walk (`filepath.WalkDir` over the trusted root) -/

/-- Visit list of `filepath.WalkDir(path, fn)` on a tree: the node
itself first (path, isDir, base name), then each subtree depth first.
Children are stored in the lexical order Go visits them. -/
def walkList (path : String) : FSTree → List (String × Bool × String)
  | .file n _ => [(path, false, n)]
  | .dir n cs => (path, true, n) :: walkChildren path cs
where
  /-- Visit lists of the children of a directory, in order. -/
  walkChildren (path : String) : List FSTree → List (String × Bool × String)
    | [] => []
    | c :: rest =>
      walkList (path ++ "/" ++ c.name) c ++ walkChildren path rest

/-- The walk visits that `makeSearchResult`'s callback turns into feed
entries (lines 217-246): regular files whose root-relative path is not
ignored and whose name contains the query case-insensitively. -/
def searchHits (s : OPDS) (tree : FSTree) (query : String) :
    List (String × Bool × String) :=
  (walkList s.TrustedRoot tree).filter fun v =>
    !v.2.1 &&
      !(fileShouldBeIgnored (cutAfterStr v.1 (s.TrustedRoot ++ "/"))
          s.HideCalibreFiles s.HideDotFiles) &&
      goContains (asciiLower v.2.2) (asciiLower query)

/-- One search-result entry (lines 231-240): id is slash plus the
root-relative path, the link href is the percent-escaped id, and
`getRel`/`getType` are called with the literal path type `0`; the
builder adds no link title. -/
def mkSearchEntry (s : OPDS) (v : String × Bool × String) : Entry :=
  let rel := cutAfterStr v.1 (s.TrustedRoot ++ "/")
  { id := "/" ++ rel
    title := v.2.2
    links := [{ rel := getRel v.2.2 0
                href := pathEscape ("/" ++ rel)
                typ := getType v.2.2 0
                title := none }] }

/-- Method `makeSearchResult` (lines 208-248): walks the whole trusted
root (no subtree is ever pruned — the callback never returns
`fs.SkipDir`), appends one entry per hit and counts them. -/
def OPDS.makeSearchResult (s : OPDS) (tree : FSTree) (now : Nat)
    (req : Request) (query : String) : Feed × Nat :=
  let hits := searchHits s tree query
  ({ id := req.urlPath
     title := "Folders containing files matching query " ++ query
     updated := now
     links := [startLink, searchLink]
     entries := hits.map (mkSearchEntry s) },
   hits.length)

/-! ## The Handler (service.go lines 76-176) -/

/-- What the handler wrote as a body (also encodes which branch served
the response; the Content-Type headers of lines 96, 155, 160, 164 and
the cache headers of lines 144-147 decorate these same branches and
are not modelled separately). -/
inductive Body where
  | noBody
  | searchDef
  | file (path : String)
  | searchFeed (f : Feed) (size : Nat)
  | acqFeed (f : Feed)
  | navFeed (f : Feed)
deriving Repr, DecidableEq

/-- Outcome of one request: the explicit status written (`none` when
the handler wrote nothing, e.g. the empty-query early return; serving
content implies 200), the body, and the error value returned to the
caller layer. -/
structure Response where
  status : Option Nat
  body : Body
  err : Option String
deriving Repr, DecidableEq

/-- Method `Handler` (lines 76-176), on the decoded URL path. The
result is `none` when the Go code would panic (a `getPathType` call
whose stat fails). The search-definition branch, the search branch and
the browse/serve branch follow the source control flow in order. -/
def OPDS.Handler (s : OPDS) (fs : FSO) (tree : FSTree) (now : Nat)
    (req : Request) : Option Response :=
  if req.urlPath == searchDefinitionPath then
    some { status := some 200, body := .searchDef, err := none }
  else if req.urlPath == searchPath then
    let query := req.query_q.getD ""
    if query == "" then
      some { status := none, body := .noBody
             err := some "query param 'q' empty or missing" }
    else
      let r := s.makeSearchResult tree now req query
      some { status := some 200, body := .searchFeed r.1 r.2, err := none }
  else
    let fPath := goJoin s.TrustedRoot req.urlPath
    match verifyPath fs.evalSym fPath s.TrustedRoot with
    | .error _ => some { status := some 404, body := .noBody, err := none }
    | .ok _ =>
      match fs.stat fPath with
      | none =>
        some { status := some 404, body := .noBody
               err := some "stat error" }
      | some _ =>
        match getPathType fs fPath with
        | none => none
        | some pt =>
          if pt == pathTypeFile then
            let rel := cutAfterStr fPath (s.TrustedRoot ++ "/")
            if fileShouldBeIgnored rel s.HideCalibreFiles s.HideDotFiles then
              some { status := some 404, body := .noBody, err := none }
            else
              some { status := some 200, body := .file fPath, err := none }
          else if pt == pathTypeDirOfFiles then
            match s.makeFeed fs now fPath req with
            | none => none
            | some f => some { status := some 200, body := .acqFeed f, err := none }
          else
            match s.makeFeed fs now fPath req with
            | none => none
            | some f => some { status := some 200, body := .navFeed f, err := none }

/-! ## Specification-side definitions (used to state claims; these
follow the spec's words, not the code) -/

/-- Claim-side predicate: the URL path contains a `..` segment. -/
def hasDotDotSeg (urlPath : String) : Bool :=
  (splitSlash urlPath).contains ".."

/-- Claim-side predicate: canonical path `p` lies outside root
`root` in the ordinary path sense — it is neither the root itself nor
below the root across a `/` boundary. -/
def specOutsideTrustedRoot (p root : String) : Bool :=
  !(p == root) && !(strStarts p (root ++ "/"))

/-- Specification-side restatement of the VisibilityFilter rules of
spec section 4.3, evaluated in order with first match winning: `.` and
`..` are never hidden; a dotfile is hidden when `hideDotfiles` is set;
a name containing one of the companion-metadata substrings is hidden
when `hideCompanionMetadataFiles` is set; otherwise visible. Compared
against `fileShouldBeIgnored` for the refinement claim. -/
def specIsHidden (name : String)
    (hideDotfiles hideCompanionMetadataFiles : Bool) : Bool :=
  if name = "." ∨ name = ".." then false
  else if hideDotfiles = true ∧ strStarts name "." = true then true
  else if hideCompanionMetadataFiles = true ∧
      (goContains name ".opf" = true ∨ goContains name "cover." = true ∨
        goContains name "metadata.db" = true ∨
        goContains name "metadata_db_prefs_backup.json" = true ∨
        goContains name ".caltrash" = true ∨
        goContains name ".calnotes" = true) then true
  else false

/-! ## Newest-items feature (spec sections 4.5 and 4.7, route `/new`) -/

/-- One collected leaf of the newest-items walk: root-relative path,
base name, modification time. -/
structure NewItem where
  relPath : String
  nm : String
  mod : Nat
deriving Repr, DecidableEq

/-- Modelled from the spec: the `/new` newest-items route is not part
of the source under `src/` (only the repository's test fixtures
reference it). Spec section 4.5: the walker collects all non-hidden
`File`-classified leaves, pruning hidden directories. `pre` is the
root-relative path of the surrounding directory (with trailing `/`
when non-empty). -/
def collectNewItems (s : OPDS) (pre : String) : FSTree → List NewItem
  | .file n m =>
    if fileShouldBeIgnored n s.HideCalibreFiles s.HideDotFiles then []
    else [⟨pre ++ n, n, m⟩]
  | .dir n cs =>
    if fileShouldBeIgnored n s.HideCalibreFiles s.HideDotFiles then []
    else collectNewList s (pre ++ n ++ "/") cs
where
  /-- Collection over a list of children, in order. -/
  collectNewList (s : OPDS) (pre : String) : List FSTree → List NewItem
    | [] => []
    | c :: rest => collectNewItems s pre c ++ collectNewList s pre rest

/-- Modelled from the spec: all candidate items under the trusted
root; the root directory itself is not subject to the filter. -/
def newestItems (s : OPDS) : FSTree → List NewItem
  | .file n m => collectNewItems s "" (.file n m)
  | .dir _ cs => collectNewItems.collectNewList s "" cs

/-- ASCII-lexicographic comparison of character lists (name ascending
tie-break of the newest feed). -/
def lexLe : List Char → List Char → Bool
  | [], _ => true
  | _ :: _, [] => false
  | a :: as, b :: bs =>
    if a.toNat < b.toNat then true
    else if b.toNat < a.toNat then false
    else lexLe as bs

/-- Ordering of the newest feed (spec section 4.5): modification time
descending, tie-broken by name ascending. -/
def newLE (a b : NewItem) : Prop :=
  b.mod < a.mod ∨ (a.mod = b.mod ∧ lexLe a.nm.data b.nm.data = true)

instance : DecidableRel newLE := fun a b => by
  unfold newLE; exact inferInstance

/-- Modelled from the spec: sort by `newLE` and take the first 14
(spec section 4.5 preserves the literal cap of 14). -/
def newestSelection (s : OPDS) (tree : FSTree) : List NewItem :=
  (List.insertionSort newLE (newestItems s tree)).take 14

/-- Modelled from the spec: one entry of the newest feed, built like a
browse entry for a file under the `/shelf` browse prefix. -/
def newestEntry (it : NewItem) : Entry :=
  { id := "/shelf/" ++ it.relPath
    title := it.nm
    links := [{ rel := getRel it.nm pathTypeFile
                title := some it.nm
                href := goJoin "/shelf" (pathEscape it.relPath)
                typ := getType it.nm pathTypeFile }] }

/-- Modelled from the spec: the newest-items feed served for `GET
/new` (spec sections 4.5-4.7): shared feed elements plus the capped,
sorted selection. -/
def newestFeed (s : OPDS) (tree : FSTree) (now : Nat) : Feed :=
  { id := "/new"
    title := "Newest books"
    updated := now
    links := [startLink, searchLink]
    entries := (newestSelection s tree).map newestEntry }

/-! ## Concrete fixtures for counterexamples and witnesses -/

/-- Configuration shared by the concrete scenarios: trusted root
`/books`, both hide options on. -/
def cfgBooks : OPDS :=
  { TrustedRoot := "/books", HideCalibreFiles := true,
    HideDotFiles := true, NoCache := false }

/-- Symlink-free filesystem for the traversal counterexample: the
sibling directory `/books2` of the trusted root `/books` exists and is
an empty directory; `EvalSymlinks` is the identity on the (already
clean) canonical paths. -/
def fsSibling : FSO :=
  { evalSym := fun p => some p
    stat := fun p => if p == "/books2" then some ⟨true⟩ else none
    readDir := fun p => if p == "/books2" then some [] else none }

/-- Request whose URL path climbs out of the root with `..` and lands
in the sibling directory `/books2`. -/
def reqSibling : Request :=
  { urlPath := "/../books2", requestURI := "/../books2", query_q := none }

/-- Filesystem for the nested-dotfile counterexample: the regular file
`/books/sub/.secret.txt` exists. -/
def fsNestedDot : FSO :=
  { evalSym := fun p => some p
    stat := fun p => if p == "/books/sub/.secret.txt" then some ⟨false⟩
                     else none
    readDir := fun _ => none }

/-- Direct request for the nested dotfile. -/
def reqNestedDot : Request :=
  { urlPath := "/sub/.secret.txt", requestURI := "/sub/.secret.txt",
    query_q := none }

/-- Tree for the search-pruning counterexample: the visible directory
`x` contains the hidden directory `.secret`, which contains the
matching book. -/
def treeHiddenNest : FSTree :=
  .dir "books" [.dir "x" [.dir ".secret" [.file "mybook.epub" 0]]]

/-- Search request used by the search scenarios. -/
def reqSearch : Request :=
  { urlPath := "/search", requestURI := "/search?q=mybook",
    query_q := some "mybook" }

/-- Filesystem whose every stat fails, for the classifier-panic
evaluation. -/
def fsStatFail : FSO :=
  { evalSym := fun _ => none, stat := fun _ => none,
    readDir := fun _ => none }

/-- Filesystem where `/books/d` stats as a directory with one plain
file child and `/books/d/f.txt` stats as a file, for witnesses. -/
def fsSmall : FSO :=
  { evalSym := fun p => some p
    stat := fun p =>
      if p == "/books/d" then some ⟨true⟩
      else if p == "/books/d/f.txt" then some ⟨false⟩
      else if p == "/books" then some ⟨true⟩
      else none
    readDir := fun p =>
      if p == "/books/d" then some [⟨"f.txt", false⟩]
      else if p == "/books" then some [⟨"d", true⟩]
      else if p == "/books/d/f.txt" then some []
      else none }

/-- Filesystem where the dotted regular file `/books/.top.txt` exists
at the top level of the trusted root. -/
def fsTopDot : FSO :=
  { evalSym := fun p => some p
    stat := fun p => if p == "/books/.top.txt" then some ⟨false⟩ else none
    readDir := fun _ => none }

/-- The browse feed `makeFeed` builds over `fsSmall` at `/books` for a
request of `/` at clock value 5, spelled out. -/
def feedSmall : Feed :=
  { id := "/", title := "Catalog in /", updated := 5
    links := [startLink, searchLink]
    entries := [mkFeedEntry "/" "/" "d" pathTypeDirOfFiles] }

/-! ## Helper lemmas -/

/-- Prefix test on character lists agrees with append decomposition. -/
theorem startsChars_iff_append :
    ∀ hay nd : List Char, startsChars hay nd = true ↔ ∃ t, hay = nd ++ t
  | hay, [] => by simp [startsChars]
  | [], _ :: _ => by simp [startsChars]
  | a :: as, b :: bs => by
    simp only [startsChars, Bool.and_eq_true, beq_iff_eq, List.cons_append,
      List.cons.injEq]
    constructor
    · rintro ⟨rfl, h⟩
      obtain ⟨t, rfl⟩ := (startsChars_iff_append as bs).mp h
      exact ⟨t, rfl, rfl⟩
    · rintro ⟨t, rfl, ht⟩
      exact ⟨rfl, (startsChars_iff_append as bs).mpr ⟨t, ht⟩⟩

/-- Unfolding of `isFile` on a stat result. -/
theorem isFile_statInfo (st : StatInfo) : isFile st = !st.isDir := rfl

/-- Unfolding of `isFile` on a directory entry. -/
theorem isFile_dirEnt (e : DirEnt) : isFile e = !e.isDir := rfl

/-- A dotted name other than `.` and `..` is ignored whenever
`hideDotFiles` is set. -/
theorem ignored_of_dotted (name : String) (hc : Bool)
    (h1 : name ≠ ".") (h2 : name ≠ "..")
    (h3 : strStarts name "." = true) :
    fileShouldBeIgnored name hc true = true := by
  have e1 : (name == ".") = false := by simp [h1]
  have e2 : (name == "..") = false := by simp [h2]
  simp [fileShouldBeIgnored, currentDirectory, parentDirectory,
    hiddenFilePre, includeFile, ignoreFile, e1, e2, h3]

/-- Contrapositive: a name that survives the filter with
`hideDotFiles` set does not start with a dot (unless it is `.` or
`..`). -/
theorem no_dot_of_not_ignored (name : String) (hc : Bool)
    (h : fileShouldBeIgnored name hc true = false)
    (h1 : name ≠ ".") (h2 : name ≠ "..") :
    strStarts name "." = false := by
  by_contra hh
  rw [ignored_of_dotted name hc h1 h2 (by
    cases hs : strStarts name "." with
    | true => rfl
    | false => exact absurd hs hh)] at h
  cases h

/-- Every entry produced by the `makeFeed` loop comes from a directory
entry that survived the visibility filter, and carries its name as
title. -/
theorem makeFeedEntries_mem (s : OPDS) (fs : FSO) (fpath : String)
    (req : Request) (ds : List DirEnt) (es : List Entry)
    (hmk : makeFeedEntries s fs fpath req ds = some es) :
    ∀ e ∈ es, ∃ d ∈ ds, e.title = d.name ∧
      fileShouldBeIgnored d.name s.HideCalibreFiles s.HideDotFiles = false := by
  induction ds generalizing es with
  | nil =>
    simp only [makeFeedEntries, Option.some.injEq] at hmk
    subst hmk
    intro e he
    cases he
  | cons d rest ih =>
    by_cases hig : fileShouldBeIgnored d.name s.HideCalibreFiles s.HideDotFiles = true
    · rw [makeFeedEntries, if_pos hig] at hmk
      intro e he
      obtain ⟨d', hd', h'⟩ := ih es hmk e he
      exact ⟨d', List.mem_cons_of_mem _ hd', h'⟩
    · rw [makeFeedEntries, if_neg hig] at hmk
      cases hpt : getPathType fs (goJoin fpath d.name) with
      | none => rw [hpt] at hmk; cases hmk
      | some pt =>
        rw [hpt] at hmk
        cases hrec : makeFeedEntries s fs fpath req rest with
        | none => rw [hrec] at hmk; cases hmk
        | some es' =>
          rw [hrec] at hmk
          cases hmk
          intro e he
          rcases List.mem_cons.mp he with rfl | he'
          · exact ⟨d, List.mem_cons_self d rest, rfl,
              Bool.eq_false_iff.mpr hig⟩
          · obtain ⟨d', hd', h'⟩ := ih es' hrec e he'
            exact ⟨d', List.mem_cons_of_mem _ hd', h'⟩

/-! ## Claims -/

/-- C2: the containment check `inTrustedRoot(path, trustedRoot)` holds
exactly when the trusted root is a string prefix of the canonical
path, with no path-separator boundary required; consequently for the
trusted root `/books` the canonical path `/books2` — a sibling
directory whose name extends the root — lies outside the root yet is
accepted by `verifyPath` (on a symlink-free filesystem where it
exists). -/
theorem c2_inTrustedRoot_plain_string_prefix :
    (∀ p r : String, inTrustedRoot p r = true ↔ ∃ t, p.data = r.data ++ t) ∧
    inTrustedRoot "/books2" "/books" = true ∧
    specOutsideTrustedRoot "/books2" "/books" = true ∧
    verifyPath (fun p => some p) "/books2" "/books" = Except.ok "/books2" :=
  ⟨fun p r => startsChars_iff_append p.data r.data, by decide, by decide,
    rfl⟩

/-- C5: the claim says that when the stat of a path fails during
classification, `getPathType` logs the error and returns the
zero-value classification `File`, remaining total. In the code the
nil `fs.FileInfo` returned by the failed `os.Stat` is immediately
dereferenced (`fi.IsDir()` via `isFile`), a runtime panic — modelled
as `none` — so the function does not return `pathTypeFile` there. -/
theorem c5_getPathType_stat_failure :
    getPathType fsStatFail "/missing" = none ∧
    getPathType fsStatFail "/missing" ≠ some pathTypeFile := by decide

/-- C6: paths that stat as non-directories classify as `File`;
directories whose immediate children are exclusively directories (in
particular empty ones) classify as `DirOfDirs`; directories with at
least one plain-file immediate child classify as `DirOfFiles`. -/
theorem c6_getPathType_classification (fs : FSO) (p : String)
    (st : StatInfo) (es : List DirEnt)
    (hstat : fs.stat p = some st) (hrd : fs.readDir p = some es) :
    (st.isDir = false → getPathType fs p = some pathTypeFile) ∧
    (st.isDir = true → (∀ e ∈ es, e.isDir = true) →
      getPathType fs p = some pathTypeDirOfDirs) ∧
    (st.isDir = true → (∃ e ∈ es, e.isDir = false) →
      getPathType fs p = some pathTypeDirOfFiles) := by
  refine ⟨?_, ?_, ?_⟩
  · intro h
    simp [getPathType, hstat, isFile_statInfo, h]
  · intro h hall
    have hany : es.any (fun e => isFile e) = false := by
      rw [Bool.eq_false_iff]
      intro htrue
      obtain ⟨e, he, hf⟩ := List.any_eq_true.mp htrue
      rw [isFile_dirEnt, hall e he] at hf
      cases hf
    simp [getPathType, hstat, hrd, isFile_statInfo, h, hany]
  · intro h hex
    obtain ⟨e, he, hf⟩ := hex
    have hany : es.any (fun e => isFile e) = true :=
      List.any_eq_true.mpr ⟨e, he, by rw [isFile_dirEnt, hf]; rfl⟩
    simp [getPathType, hstat, hrd, isFile_statInfo, h, hany]

/-- Witness for C6: concrete classifications of a plain file, a
directory of directories, and a directory with a plain-file child. -/
theorem c6_witness :
    getPathType fsSmall "/books/d/f.txt" = some pathTypeFile ∧
    getPathType fsSmall "/books" = some pathTypeDirOfDirs ∧
    getPathType fsSmall "/books/d" = some pathTypeDirOfFiles :=
  ⟨(c6_getPathType_classification fsSmall "/books/d/f.txt" ⟨false⟩ []
      (by decide) (by decide)).1 rfl,
    (c6_getPathType_classification fsSmall "/books" ⟨true⟩ [⟨"d", true⟩]
      (by decide) (by decide)).2.1 rfl (by decide),
    (c6_getPathType_classification fsSmall "/books/d" ⟨true⟩ [⟨"f.txt", false⟩]
      (by decide) (by decide)).2.2 rfl ⟨⟨"f.txt", false⟩, by decide, rfl⟩⟩

/-- C7: the visibility filter evaluates its rules in order with first
match winning — `.` and `..` are never hidden, then the dotfile rule,
then the companion-metadata substring rule, otherwise visible —
stated as agreement with the specification-side rule list
`specIsHidden` plus the never-hidden guarantee for `.` and `..`. -/
theorem c7_visibility_filter_rules :
    (∀ (name : String) (hc hd : Bool),
        fileShouldBeIgnored name hc hd = specIsHidden name hd hc) ∧
    (∀ hc hd : Bool,
        fileShouldBeIgnored "." hc hd = false ∧
        fileShouldBeIgnored ".." hc hd = false) := by
  constructor
  · intro name hc hd
    simp only [fileShouldBeIgnored, specIsHidden, currentDirectory,
      parentDirectory, hiddenFilePre, includeFile, ignoreFile]
    split_ifs <;> simp_all
  · intro hc hd
    exact ⟨by simp [fileShouldBeIgnored, currentDirectory, includeFile],
      by simp [fileShouldBeIgnored, currentDirectory, parentDirectory,
        includeFile]⟩

/-- C9: a search request whose `q` query parameter is missing or empty
makes the Handler return the descriptive error to the caller layer
without writing any status or body of its own. -/
theorem c9_search_empty_query (s : OPDS) (fs : FSO) (tree : FSTree)
    (now : Nat) (req : Request) (hp : req.urlPath = searchPath)
    (hq : req.query_q = none ∨ req.query_q = some "") :
    s.Handler fs tree now req =
      some { status := none, body := .noBody,
             err := some "query param 'q' empty or missing" } := by
  have h1 : (req.urlPath == searchDefinitionPath) = false := by
    rw [hp]; decide
  have h2 : (req.urlPath == searchPath) = true := by rw [hp]; decide
  rcases hq with h | h <;> simp [OPDS.Handler, h1, h2, h]

/-- Witness for C9: a concrete `/search` request with the parameter
absent. -/
theorem c9_witness :
    cfgBooks.Handler fsSmall (.dir "books" []) 0
        ⟨"/search", "/search", none⟩ =
      some { status := none, body := .noBody,
             err := some "query param 'q' empty or missing" } :=
  c9_search_empty_query cfgBooks fsSmall (.dir "books" []) 0
    ⟨"/search", "/search", none⟩ rfl (Or.inl rfl)

/-- C10: every feed the assemblers produce — browse feeds from
`makeFeed` and search-result feeds from `makeSearchResult` — has id
equal to the request path, updated equal to the injected clock value,
and exactly the `start` link (href `/`, navigation type) and `search`
link (href `/opensearch.xml`, search-description type). -/
theorem c10_feed_shared_elements :
    (∀ (s : OPDS) (fs : FSO) (now : Nat) (fpath : String) (req : Request)
        (f : Feed), s.makeFeed fs now fpath req = some f →
        f.id = req.urlPath ∧ f.updated = now ∧
        f.links = [startLink, searchLink]) ∧
    (∀ (s : OPDS) (tree : FSTree) (now : Nat) (req : Request) (q : String),
        (s.makeSearchResult tree now req q).1.id = req.urlPath ∧
        (s.makeSearchResult tree now req q).1.updated = now ∧
        (s.makeSearchResult tree now req q).1.links =
          [startLink, searchLink]) ∧
    startLink = { rel := "start", href := "/", typ := navType,
                  title := none } ∧
    searchLink = { rel := "search", href := "/opensearch.xml",
                   typ := searchType, title := none } := by
  refine ⟨?_, ?_, rfl, by decide⟩
  · intro s fs now fpath req f hf
    unfold OPDS.makeFeed at hf
    cases hme : makeFeedEntries s fs fpath req ((fs.readDir fpath).getD [])
      with
    | none => rw [hme] at hf; cases hf
    | some es =>
      rw [hme] at hf
      cases hf
      exact ⟨rfl, rfl, rfl⟩
  · intro s tree now req q
    exact ⟨rfl, rfl, rfl⟩

/-- Witness for C10: the shared elements of a concrete browse feed. -/
theorem c10_witness :
    (feedSmall).id = "/" ∧ (feedSmall).updated = 5 ∧
    (feedSmall).links = [startLink, searchLink] :=
  c10_feed_shared_elements.1 cfgBooks fsSmall 5 "/books" ⟨"/", "/", none⟩
    feedSmall (by decide)

/-- C1 (amended): for every request URL path — other than the search
and search-definition routes — whose joined filesystem path either
fails to canonicalize or whose canonical form does not have the
trusted root as a string prefix, `verifyPath` rejects the path and the
Handler responds 404 without serving any file or feed content. (The
original claim, over every `..` path resolving outside the root, fails
because the prefix test has no separator boundary; see the
counterexample.) -/
theorem c1_amended_reject_outside_prefix (s : OPDS) (fs : FSO)
    (tree : FSTree) (now : Nat) (req : Request)
    (h1 : req.urlPath ≠ searchDefinitionPath)
    (h2 : req.urlPath ≠ searchPath)
    (hout : ∀ r, fs.evalSym (clean (goJoin s.TrustedRoot req.urlPath)) =
        some r → inTrustedRoot r s.TrustedRoot = false) :
    verifyPath fs.evalSym (goJoin s.TrustedRoot req.urlPath) s.TrustedRoot =
      Except.error "unsafe or invalid path specified" ∧
    s.Handler fs tree now req =
      some { status := some 404, body := .noBody, err := none } := by
  have hb1 : (req.urlPath == searchDefinitionPath) = false := by simp [h1]
  have hb2 : (req.urlPath == searchPath) = false := by simp [h2]
  have hv : verifyPath fs.evalSym (goJoin s.TrustedRoot req.urlPath)
      s.TrustedRoot = Except.error "unsafe or invalid path specified" := by
    unfold verifyPath
    cases he : fs.evalSym (clean (goJoin s.TrustedRoot req.urlPath)) with
    | none => simp [he]
    | some r => simp [he, hout r he]
  refine ⟨hv, ?_⟩
  simp [OPDS.Handler, hb1, hb2, hv]

/-- Counterexample for C1: the request path `/../books2` contains a
`..` segment and its joined path canonicalizes to `/books2`, outside
the trusted root `/books`; yet `verifyPath` accepts it (the root is a
string prefix of the sibling's name) and the Handler serves a feed
with status 200 instead of responding 404. -/
theorem c1_counterexample :
    hasDotDotSeg "/../books2" = true ∧
    specOutsideTrustedRoot (clean (goJoin "/books" "/../books2"))
      "/books" = true ∧
    verifyPath fsSibling.evalSym (goJoin "/books" "/../books2") "/books" =
      Except.ok "/books2" ∧
    cfgBooks.Handler fsSibling (.dir "books" []) 0 reqSibling =
      some { status := some 200
             body := .navFeed { id := "/../books2"
                                title := "Catalog in /../books2"
                                updated := 0
                                links := [startLink, searchLink]
                                entries := [] }
             err := none } :=
  ⟨by decide, by decide, rfl, by decide⟩

/-- Witness for C1 (amended): a `..` request whose joined path cannot
be canonicalized (EvalSymlinks fails) is rejected and answered 404
with no body. -/
theorem c1_amended_witness :
    verifyPath fsStatFail.evalSym (goJoin "/books" "/../x") "/books" =
      Except.error "unsafe or invalid path specified" ∧
    cfgBooks.Handler fsStatFail (.dir "books" []) 0 ⟨"/../x", "/../x", none⟩ =
      some { status := some 404, body := .noBody, err := none } :=
  c1_amended_reject_outside_prefix cfgBooks fsStatFail (.dir "books" []) 0
    ⟨"/../x", "/../x", none⟩ (by decide) (by decide) (fun r h => nomatch h)

/-- C4 (amended): with `hideDotFiles` enabled the visibility filter
marks every base name starting with `.` (other than `.` and `..`)
hidden, and the browse feed of the parent omits such entries; a
direct request, however, applies the filter to the file's full path
relative to the trusted root, so it yields 404 exactly when that
relative path is marked hidden — in particular for top-level dotted
paths — while a dotfile nested below the top level is served (see the
counterexample). -/
theorem c4_amended_dotfiles :
    (∀ (name : String) (hc : Bool), name ≠ "." → name ≠ ".." →
        strStarts name "." = true →
        fileShouldBeIgnored name hc true = true) ∧
    (∀ (s : OPDS) (fs : FSO) (now : Nat) (fpath : String) (req : Request)
        (f : Feed), s.HideDotFiles = true →
        s.makeFeed fs now fpath req = some f →
        ∀ e ∈ f.entries, e.title ≠ "." → e.title ≠ ".." →
          strStarts e.title "." = false) ∧
    (∀ (s : OPDS) (fs : FSO) (tree : FSTree) (now : Nat) (req : Request),
        req.urlPath ≠ searchDefinitionPath → req.urlPath ≠ searchPath →
        (∃ r, verifyPath fs.evalSym (goJoin s.TrustedRoot req.urlPath)
            s.TrustedRoot = Except.ok r) →
        (∃ st, fs.stat (goJoin s.TrustedRoot req.urlPath) = some st ∧
            isFile st = true) →
        fileShouldBeIgnored
            (cutAfterStr (goJoin s.TrustedRoot req.urlPath)
              (s.TrustedRoot ++ "/"))
            s.HideCalibreFiles s.HideDotFiles = true →
        s.Handler fs tree now req =
          some { status := some 404, body := .noBody, err := none }) := by
  refine ⟨ignored_of_dotted, ?_, ?_⟩
  · intro s fs now fpath req f hd hmf e he h1 h2
    unfold OPDS.makeFeed at hmf
    cases hme : makeFeedEntries s fs fpath req ((fs.readDir fpath).getD [])
      with
    | none => rw [hme] at hmf; cases hmf
    | some es =>
      rw [hme] at hmf
      cases hmf
      obtain ⟨d, _, ht, hig⟩ :=
        makeFeedEntries_mem s fs fpath req _ es hme e he
      rw [hd] at hig
      exact ht ▸ no_dot_of_not_ignored d.name s.HideCalibreFiles hig
        (ht ▸ h1) (ht ▸ h2)
  · intro s fs tree now req h1 h2 ⟨r, hv⟩ ⟨st, hst, hisf⟩ hig
    have hb1 : (req.urlPath == searchDefinitionPath) = false := by simp [h1]
    have hb2 : (req.urlPath == searchPath) = false := by simp [h2]
    have hpt : getPathType fs (goJoin s.TrustedRoot req.urlPath) =
        some pathTypeFile := by
      simp [getPathType, hst, hisf]
    simp [OPDS.Handler, hb1, hb2, hv, hst, hpt, hig]

/-- Counterexample for C4: the regular file `/books/sub/.secret.txt`
has a base name starting with `.` and the filter does mark that base
name hidden; yet a direct request for `/sub/.secret.txt` is served
with status 200 (the filter is applied to the relative path
`sub/.secret.txt`, which does not start with `.`), instead of the
claimed 404. -/
theorem c4_counterexample :
    cfgBooks.HideDotFiles = true ∧
    strStarts ".secret.txt" "." = true ∧
    fileShouldBeIgnored ".secret.txt" true true = true ∧
    fileShouldBeIgnored "sub/.secret.txt" true true = false ∧
    cfgBooks.Handler fsNestedDot (.dir "books" []) 0 reqNestedDot =
      some { status := some 200, body := .file "/books/sub/.secret.txt",
             err := none } := by
  refine ⟨rfl, by decide, by decide, by decide, by decide⟩

/-- Witness for C4 (amended): the filter hides the dotted name
`.secret.txt`; the concrete feed over `fsSmall` has no dotted entry
title; and a direct request for the top-level dotted file
`/.top.txt` under `/books` is answered 404. -/
theorem c4_amended_witness :
    fileShouldBeIgnored ".secret.txt" true true = true ∧
    strStarts "d" "." = false ∧
    cfgBooks.Handler fsTopDot (.dir "books" []) 0 ⟨"/.top.txt", "/.top.txt", none⟩ =
      some { status := some 404, body := .noBody, err := none } :=
  ⟨c4_amended_dotfiles.1 ".secret.txt" true (by decide) (by decide)
      (by decide),
    c4_amended_dotfiles.2.1 cfgBooks fsSmall 5 "/books" ⟨"/", "/", none⟩
      feedSmall rfl (by decide) (mkFeedEntry "/" "/" "d" pathTypeDirOfFiles)
      (by decide) (by decide) (by decide),
    c4_amended_dotfiles.2.2 cfgBooks fsTopDot (.dir "books" []) 0
      ⟨"/.top.txt", "/.top.txt", none⟩ (by decide) (by decide)
      ⟨"/books/.top.txt", rfl⟩ ⟨⟨false⟩, rfl, rfl⟩ (by decide)⟩

/-- C3 (amended): the search walk does not prune hidden directories —
its callback never skips a subtree; instead every regular file in the
tree is tested individually, and a file appears in the search-result
feed exactly when its name contains the query case-insensitively and
the visibility filter does not mark its full root-relative path
hidden. Files directly under a top-level hidden directory are
therefore omitted (their relative path starts with `.`), but a file
inside a hidden directory nested one level deeper can appear (see the
counterexample). -/
theorem c3_amended_search_filters_relative_paths (s : OPDS)
    (tree : FSTree) (now : Nat) (req : Request) (q : String) :
    (s.makeSearchResult tree now req q).1.entries =
      (searchHits s tree q).map (mkSearchEntry s) ∧
    ∀ v ∈ searchHits s tree q,
      v.2.1 = false ∧
      fileShouldBeIgnored (cutAfterStr v.1 (s.TrustedRoot ++ "/"))
        s.HideCalibreFiles s.HideDotFiles = false ∧
      goContains (asciiLower v.2.2) (asciiLower q) = true := by
  refine ⟨rfl, ?_⟩
  intro v hv
  obtain ⟨-, hp⟩ := List.mem_filter.mp hv
  simp only [Bool.and_eq_true, Bool.not_eq_true'] at hp
  exact ⟨hp.1.1, hp.1.2, hp.2⟩

/-- Counterexample for C3: with `hideDotFiles` set, the directory
`.secret` (inside the visible directory `x`) is hidden by the filter,
yet the search for `mybook` returns the file located beneath it — the
walker descended into the hidden subtree and the file's relative path
`x/.secret/mybook.epub` does not itself trip the filter. -/
theorem c3_counterexample :
    fileShouldBeIgnored ".secret" true true = true ∧
    (cfgBooks.makeSearchResult treeHiddenNest 0 reqSearch "mybook").2 = 1 ∧
    (cfgBooks.makeSearchResult treeHiddenNest 0 reqSearch "mybook").1.entries =
      [{ id := "/x/.secret/mybook.epub", title := "mybook.epub",
         links := [{ rel := "http://opds-spec.org/acquisition",
                     href := "%2Fx%2F.secret%2Fmybook.epub",
                     typ := "application/epub+zip", title := none }] }] := by
  refine ⟨by decide, by decide, by decide⟩

/-- Witness for C3 (amended): the concrete hit for query `mybook` over
a one-file tree satisfies the amended characterization. -/
theorem c3_amended_witness :
    (("/books/mybook.epub", false, "mybook.epub") :
        String × Bool × String).2.1 = false ∧
    fileShouldBeIgnored (cutAfterStr "/books/mybook.epub" ("/books" ++ "/"))
      true true = false ∧
    goContains (asciiLower "mybook.epub") (asciiLower "mybook") = true :=
  (c3_amended_search_filters_relative_paths cfgBooks
      (.dir "books" [.file "mybook.epub" 7]) 3 reqSearch "mybook").2
    ("/books/mybook.epub", false, "mybook.epub") (by decide)

/-- Totality of the ASCII-lexicographic comparison. -/
theorem lexLe_total : ∀ x y : List Char, lexLe x y = true ∨ lexLe y x = true
  | [], _ => Or.inl rfl
  | _ :: _, [] => Or.inr rfl
  | a :: as, b :: bs => by
    rcases Nat.lt_trichotomy a.toNat b.toNat with h | h | h
    · exact Or.inl (by simp [lexLe, h])
    · have h1 : ¬ a.toNat < b.toNat := by omega
      have h2 : ¬ b.toNat < a.toNat := by omega
      rcases lexLe_total as bs with hl | hl
      · exact Or.inl (by simp [lexLe, h1, h2, hl])
      · exact Or.inr (by simp [lexLe, h1, h2, hl])
    · exact Or.inr (by simp [lexLe, h])

/-- Transitivity of the ASCII-lexicographic comparison. -/
theorem lexLe_trans : ∀ x y z : List Char,
    lexLe x y = true → lexLe y z = true → lexLe x z = true
  | [], _, _, _, _ => rfl
  | _ :: _, [], _, h1, _ => by simp [lexLe] at h1
  | _ :: _, _ :: _, [], _, h2 => by simp [lexLe] at h2
  | a :: as, b :: bs, c :: cs, h1, h2 => by
    by_cases hab : a.toNat < b.toNat <;> by_cases hbc : b.toNat < c.toNat
    · simp [lexLe, Nat.lt_trans hab hbc]
    · have hcb : ¬ c.toNat < b.toNat := by
        by_contra hc
        simp [lexLe, hbc, hc] at h2
      have hac : a.toNat < c.toNat := by omega
      simp [lexLe, hac]
    · have hba : ¬ b.toNat < a.toNat := by
        by_contra hc
        simp [lexLe, hab, hc] at h1
      have hac : a.toNat < c.toNat := by omega
      simp [lexLe, hac]
    · have hba : ¬ b.toNat < a.toNat := by
        by_contra hc
        simp [lexLe, hab, hc] at h1
      have hcb : ¬ c.toNat < b.toNat := by
        by_contra hc
        simp [lexLe, hbc, hc] at h2
      have hac : ¬ a.toNat < c.toNat := by omega
      have hca : ¬ c.toNat < a.toNat := by omega
      have l1 : lexLe as bs = true := by simpa [lexLe, hab, hba] using h1
      have l2 : lexLe bs cs = true := by simpa [lexLe, hbc, hcb] using h2
      simp [lexLe, hac, hca, lexLe_trans as bs cs l1 l2]

/-- C8: the newest-items feed served for `GET /new` never contains
more than 14 entries, and the selected items are in non-increasing
modification-time order with ties broken by name ascending (the order
`newLE`); the feed entries are exactly the selection, in that order.
The `/new` route is modelled from the spec because it is absent from
the source tree. -/
theorem c8_newest_feed_capped_and_sorted (s : OPDS) (tree : FSTree)
    (now : Nat) :
    (newestFeed s tree now).entries.length ≤ 14 ∧
    List.Sorted newLE (newestSelection s tree) ∧
    (newestFeed s tree now).entries =
      (newestSelection s tree).map newestEntry := by
  haveI : IsTotal NewItem newLE :=
    ⟨by
      intro a b
      unfold newLE
      rcases Nat.lt_trichotomy a.mod b.mod with h | h | h
      · exact Or.inr (Or.inl h)
      · rcases lexLe_total a.nm.data b.nm.data with hl | hl
        · exact Or.inl (Or.inr ⟨h, hl⟩)
        · exact Or.inr (Or.inr ⟨h.symm, hl⟩)
      · exact Or.inl (Or.inl h)⟩
  haveI : IsTrans NewItem newLE :=
    ⟨by
      intro a b c hab hbc
      unfold newLE at *
      rcases hab with h1 | ⟨h1, l1⟩ <;> rcases hbc with h2 | ⟨h2, l2⟩
      · exact Or.inl (by omega)
      · exact Or.inl (by omega)
      · exact Or.inl (by omega)
      · exact Or.inr ⟨h1.trans h2, lexLe_trans _ _ _ l1 l2⟩⟩
  refine ⟨?_, ?_, rfl⟩
  · show ((newestSelection s tree).map newestEntry).length ≤ 14
    rw [List.length_map, newestSelection, List.length_take]
    exact Nat.min_le_left _ _
  · unfold newestSelection
    exact (List.sorted_insertionSort newLE (newestItems s tree)).sublist
      (List.take_sublist 14 _)
